import Mathlib

/-!
Verification of the legacy-gateway core of this repository (a text-board
system with a legacy CGI gateway for bulletin-board client software).

The definitions below are a shallow embedding of the TypeScript source:

* `src/frontend/src/routes/bbs.cgi/+server.ts` — the legacy form decoder
  (the custom `decodeURIComponent` callback given to `querystring.parse`),
  the POST dispatch logic, and the CGI success/error response builders;
* `src/frontend/src/lib/utils/fingerprint.ts` — the fingerprint hasher;
* the `createSjisResponse` / `escapeDatField` helpers of the server-side
  legacy-format module;
* `src/backend/migrations/20250731181200_create_rate_limiter_tables.sql` —
  the rate-limit lock table constraint.

Bytes are modelled as `Nat` (the JS code works over Node `Buffer`s and
latin1 strings, so every unit is a value `< 256`; masks such as the
`'ascii'` high-bit strip are written explicitly as `% 128`, and the
`Buffer.from` uint8 coercion as `% 256`).  Fallible operations (indexed
buffer reads inside the hand-written unescape loop) return `Option`.
-/

namespace AtSt

/-! ### JS `parseInt(s, 16)` on the two-character hex slice

The decoder callback reads `buffer.toString('ascii', i + 1, i + 3)` — a
two-character string whose chars are the two bytes with the high bit
stripped — and feeds it to `parseInt(hex, 16)`.  JS `parseInt` skips
leading whitespace, accepts an optional sign, treats a leading `0x`/`0X`
as a hex prefix, and parses the longest leading run of hex digits,
returning `NaN` (here `none`) only when that run is empty. -/

/-- Value of an ASCII hex-digit character code (`0-9`, `A-F`, `a-f`). -/
def hexDigitVal (c : Nat) : Option Nat :=
  if 48 ≤ c ∧ c ≤ 57 then some (c - 48)
  else if 65 ≤ c ∧ c ≤ 70 then some (c - 55)
  else if 97 ≤ c ∧ c ≤ 102 then some (c - 87)
  else none

/-- JS `parseInt` whitespace (the ASCII part; the `'ascii'` decode has
already reduced every char below 128). -/
def isJsSpace (c : Nat) : Bool := c = 32 || (9 ≤ c && c ≤ 13)

/-- `parseInt(s, 16)` when only a single character remains after
whitespace/sign stripping: a hex digit parses, anything else is `NaN`. -/
def jsParseIntTail (c : Nat) : Option Int :=
  (hexDigitVal c).map Int.ofNat

/-- JS `parseInt(⟨c1, c2⟩, 16)` on a two-character string, given the two
character codes.  Covers: leading whitespace, `+`/`-` sign, the `0x`/`0X`
hex prefix (which consumes both chars and leaves no digits, hence `NaN`),
a full two-digit parse, and the one-digit "longest leading run" parse
(`parseInt("4Z", 16) = 4`). -/
def jsParseIntHex2 (c1 c2 : Nat) : Option Int :=
  if isJsSpace c1 then jsParseIntTail c2
  else if c1 = 43 then jsParseIntTail c2
  else if c1 = 45 then (hexDigitVal c2).map (fun v => -(v : Int))
  else if c1 = 48 ∧ (c2 = 120 ∨ c2 = 88) then none
  else
    match hexDigitVal c1, hexDigitVal c2 with
    | some v1, some v2 => some (16 * v1 + v2)
    | some v1, none => some v1
    | none, _ => none

/-! ### The percent-unescape loop of the `decodeURIComponent` callback

Source (bbs.cgi `+server.ts`, POST handler):

```
const bytes: number[] = [];
const buffer = Buffer.from(str, 'latin1');
let i = 0;
while (i < buffer.length) {
  if (buffer[i] === 0x25 && i + 2 < buffer.length) {
    const hex = buffer.toString('ascii', i + 1, i + 3);
    const byte = parseInt(hex, 16);
    if (!isNaN(byte)) { bytes.push(byte); i += 3; continue; }
  }
  bytes.push(buffer[i]);
  i++;
}
```

`percentDecodeBytesGo` is the loop verbatim: indexed reads are modelled
with `·[·]?` so that an out-of-bounds access would surface as `none`;
`parseInt` results are pushed through the `Buffer.from` uint8 coercion
(`Int.emod · 256`). -/

def percentDecodeBytesGo (buf : List Nat) (i : Nat) : Option (List Nat) :=
  if i < buf.length then
    match buf[i]? with
    | none => none
    | some b =>
      if b = 37 ∧ i + 2 < buf.length then
        match buf[i+1]?, buf[i+2]? with
        | some h1, some h2 =>
          (match jsParseIntHex2 (h1 % 128) (h2 % 128) with
          | some v =>
            match percentDecodeBytesGo buf (i+3) with
            | some r => some (((v % 256).toNat) :: r)
            | none => none
          | none =>
            match percentDecodeBytesGo buf (i+1) with
            | some r => some (b :: r)
            | none => none)
        | _, _ => none
      else
        match percentDecodeBytesGo buf (i+1) with
        | some r => some (b :: r)
        | none => none
  else some []
termination_by buf.length - i
decreasing_by all_goals omega

/-- Structural-recursion form of the same loop (the guard
`i + 2 < buffer.length` is exactly "at least two bytes follow the `%`"). -/
def percentDecodeBytesL : List Nat → List Nat
  | [] => []
  | b :: h1 :: h2 :: rest2 =>
    if b = 37 then
      match jsParseIntHex2 (h1 % 128) (h2 % 128) with
      | some v => ((v % 256).toNat) :: percentDecodeBytesL rest2
      | none => b :: percentDecodeBytesL (h1 :: h2 :: rest2)
    else b :: percentDecodeBytesL (h1 :: h2 :: rest2)
  | b :: rest => b :: percentDecodeBytesL rest

/-! ### iconv-lite `decode(buf, 'shift_jis')`

The callback then runs

```
const sjisCandidateBuffer = Buffer.from(bytes);
let decodedStr = '';
let lastDecodedIndex = 0;
for (let i = 0; i <= buffer.length; i++) {
  try {
    const decodedPart = iconv.decode(sjisCandidateBuffer.slice(0, i), 'shift_jis');
    decodedStr = decodedPart;
    lastDecodedIndex = i;
  } catch (e) { ... decodedStr += buffer.slice(lastDecodedIndex, i).toString('utf-8'); ... }
}
```

iconv-lite's DBCS decoder is total: an unmapped byte or byte pair yields
the replacement character U+FFFD and decoding resumes at the byte after
the offending lead byte; a dangling lead byte at end of input also yields
U+FFFD.  It never throws on a `Buffer` with a known encoding, so the
`catch` branch above is unreachable and is not part of the model (see the
theorem for C1).

`sjisPairTable` lists only the double-byte code points that appear in the
statements below.  Every double-byte mapping in the full CP932 table used
by iconv-lite is a single BMP scalar value, so restricting the table
changes none of the stated properties (in particular no decode can ever
produce a supplementary-plane character such as an emoji); pairs outside
the table decode here to U+FFFD exactly as unassigned pairs do in
iconv-lite. -/

/-- Shift_JIS lead bytes: 0x81–0x9F and 0xE0–0xFC. -/
def sjisIsLead (b : Nat) : Bool := (129 ≤ b && b ≤ 159) || (224 ≤ b && b ≤ 252)

/-- Single-byte Shift_JIS: ASCII identity and half-width katakana
(0xA1–0xDF ↦ U+FF61–U+FF9F). -/
def sjisSingle (b : Nat) : Option Char :=
  if b ≤ 127 then some (Char.ofNat b)
  else if 161 ≤ b && b ≤ 223 then some (Char.ofNat (65377 + (b - 161)))
  else none

/-- Double-byte table (restricted; see the section comment): the
katakana テ (0x83 0x65), ス (0x83 0x58), ト (0x83 0x67). -/
def sjisPairTable : List (Nat × Nat × Char) :=
  [(131, 101, 'テ'), (131, 88, 'ス'), (131, 103, 'ト')]

def sjisPairLookup (b1 b2 : Nat) : Option Char :=
  (sjisPairTable.find? (fun e => e.1 == b1 && e.2.1 == b2)).map (fun e => e.2.2)

/-- U+FFFD, iconv-lite's `defaultCharUnicode`. -/
def sjisReplacement : Char := Char.ofNat 65533

/-- Total Shift_JIS decode, following iconv-lite's DBCS decoder: on an
unmapped pair the replacement character is emitted for the lead byte and
decoding resumes at the byte after it; a dangling trailing lead byte
flushes one replacement character. -/
def sjisDecode : List Nat → List Char
  | [] => []
  | b :: b2 :: rest2 =>
    if sjisIsLead b then
      match sjisPairLookup b b2 with
      | some c => c :: sjisDecode rest2
      | none => sjisReplacement :: sjisDecode (b2 :: rest2)
    else
      match sjisSingle b with
      | some c => c :: sjisDecode (b2 :: rest2)
      | none => sjisReplacement :: sjisDecode (b2 :: rest2)
  | [b] =>
    if sjisIsLead b then [sjisReplacement]
    else
      match sjisSingle b with
      | some c => [c]
      | none => [sjisReplacement]

def sjisDecodeStr (bytes : List Nat) : String := String.mk (sjisDecode bytes)

/-- iconv-lite `encode(text, 'Shift_JIS')` over the same restricted
table; unmappable characters become `'?'` (0x3F), iconv-lite's
`defaultCharSingleByte`. -/
def sjisEncodeChar (c : Char) : List Nat :=
  if c.toNat ≤ 127 then [c.toNat]
  else if 65377 ≤ c.toNat && c.toNat ≤ 65439 then [161 + (c.toNat - 65377)]
  else
    match sjisPairTable.find? (fun e => e.2.2 == c) with
    | some e => [e.1, e.2.1]
    | none => [63]

def sjisEncode (s : String) : List Nat := (s.data.map sjisEncodeChar).flatten

/-! ### `he.decode` (HTML entity decoding)

After charset decoding the callback returns `he.decode(str)`.  `he` with
default options (`strict: false`) never throws; it decodes numeric
references (`&#NNN;`, `&#xHH;`, semicolon optional) and named references.
The named table is restricted here to the basic entities; the legacy
named-without-semicolon forms of the `he` library are not modelled (no
statement below touches them — every entity-bearing position in the
claims is entity-free). -/

def heNamedEntities : List (String × Char) :=
  [("amp", '&'), ("lt", '<'), ("gt", '>'), ("quot", '"'),
   ("apos", Char.ofNat 39), ("nbsp", Char.ofNat 160)]

def isAsciiDigitC (c : Char) : Bool := 48 ≤ c.toNat && c.toNat ≤ 57

def isHexDigitC (c : Char) : Bool := (hexDigitVal c.toNat).isSome

def isAlnumC (c : Char) : Bool :=
  isAsciiDigitC c || (65 ≤ c.toNat && c.toNat ≤ 90) || (97 ≤ c.toNat && c.toNat ≤ 122)

def decDigitsToNat (ds : List Char) : Nat :=
  ds.foldl (fun acc c => 10 * acc + (c.toNat - 48)) 0

def hexDigitsToNat (ds : List Char) : Nat :=
  ds.foldl (fun acc c => 16 * acc + ((hexDigitVal c.toNat).getD 0)) 0

/-- `he` maps the NUL reference, surrogate code points and out-of-range
values to U+FFFD; everything else to the code point itself. -/
def heCodePointChar (n : Nat) : Char :=
  if n = 0 ∨ (55296 ≤ n ∧ n ≤ 57343) ∨ 1114111 < n then Char.ofNat 65533
  else Char.ofNat n

/-- Parse one entity reference immediately after a `&`; returns the
decoded character and how many characters were consumed. -/
def heParseEntity (cs : List Char) : Option (Char × Nat) :=
  match cs with
  | '#' :: rest =>
    match rest with
    | x :: hrest =>
      if x = 'x' ∨ x = 'X' then
        let ds := hrest.takeWhile isHexDigitC
        if ds = [] then none
        else
          let semi := if (hrest.drop ds.length).head? = some ';' then 1 else 0
          some (heCodePointChar (hexDigitsToNat ds), 2 + ds.length + semi)
      else
        let ds := rest.takeWhile isAsciiDigitC
        if ds = [] then none
        else
          let semi := if (rest.drop ds.length).head? = some ';' then 1 else 0
          some (heCodePointChar (decDigitsToNat ds), 1 + ds.length + semi)
    | [] => none
  | _ =>
    let run := cs.takeWhile isAlnumC
    if (cs.drop run.length).head? = some ';' then
      match heNamedEntities.find? (fun e => e.1 == String.mk run) with
      | some e => some (e.2, run.length + 1)
      | none => none
    else none

def heDecodeGo : Nat → List Char → List Char
  | 0, cs => cs
  | _, [] => []
  | f + 1, c :: rest =>
    if c = '&' then
      match heParseEntity rest with
      | some (d, n) => d :: heDecodeGo f (rest.drop n)
      | none => c :: heDecodeGo f rest
    else c :: heDecodeGo f rest

def heDecode (s : String) : String := String.mk (heDecodeGo s.data.length s.data)

/-! ### The full `decodeURIComponent` callback -/

/-- The `for (let i = 0; i <= buffer.length; i++)` trial-decode loop.
`decodedStr` is overwritten on every iteration (iconv-lite never throws,
so every iteration succeeds); the bound is the length of the *original*
(still percent-escaped) buffer, which is always at least the unescaped
length. -/
def incrementalSjisDecode (origLen : Nat) (bytes : List Nat) : String :=
  (List.range (origLen + 1)).foldl (fun _ i => sjisDecodeStr (bytes.take i)) ""

/-- The complete custom `decodeURIComponent` callback handed to
`querystring.parse`: percent-unescape, best-effort Shift_JIS decode,
HTML-entity decode. -/
def bbsDecodeURIComponent (input : List Nat) : Option String :=
  match percentDecodeBytesGo input 0 with
  | some bytes => some (heDecode (incrementalSjisDecode input.length bytes))
  | none => none

/-! ### `querystring.parse` with the custom decoder

The POST handler runs

```
const decodedFields = querystring.parse(buffer.toString('latin1'), '&', '=',
                                        { decodeURIComponent: ... });
const formData = new URLSearchParams(decodedFields as Record<string, string>);
```

Node's `querystring.parse` with a single-char separator and a custom
decoder behaves as follows (lib/querystring.js):
* the input splits on `&` into segments, each segment at its *first* `=`
  into a key part and a value part (no `=` ⇒ empty value);
* an empty segment is skipped, but still consumes one of the
  `maxKeys = 1000` pair slots; parsing stops once the slots run out;
* because a custom decoder is installed, every `+` is replaced by the
  three characters `%20` (`plusChar`) before the part reaches the
  decoder, and the decoder is applied to every nonempty key and value
  (`decodeStr` wraps the call in try/catch, falling back to the raw
  string — the fallback is unreachable here since the callback is total);
* a repeated key collects its values into an *array* (`addKeyVal`:
  `obj[key] = [curValue, value]` / `curValue[length] = value`).

`new URLSearchParams(record)` then converts each property via the WebIDL
`record<USVString, USVString>` coercion, which stringifies an array value
by joining it with commas (`['1','2'].toString() = "1,2"`).
`URLSearchParams.get` returns the value of the (unique) matching key.
The record conversion also reorders integer-like keys first; the order is
irrelevant to `get`, and the model keeps first-insertion order. -/

/-- With a custom decoder Node replaces each `+` by the literal three
characters `%20` before decoding. -/
def plusExpand (l : List Nat) : List Nat :=
  (l.map (fun b => if b = 43 then [37, 50, 48] else [b])).flatten

/-- Split the latin1 character-code list on `&` (0x26) into segments. -/
def splitSegs : List Nat → List (List Nat)
  | [] => [[]]
  | b :: rest =>
    if b = 38 then [] :: splitSegs rest
    else
      match splitSegs rest with
      | s :: ss => (b :: s) :: ss
      | [] => [[b]]

/-- Split a segment at its first `=` (0x3D); a segment without `=` is all
key, with an empty value. -/
def splitFirstEq : List Nat → List Nat × List Nat
  | [] => ([], [])
  | b :: rest =>
    if b = 61 then ([], rest)
    else
      let p := splitFirstEq rest
      (b :: p.1, p.2)

/-- Decode one nonempty segment into a key/value pair. -/
def parsePair (seg : List Nat) : Option (String × String) :=
  let p := splitFirstEq seg
  match bbsDecodeURIComponent (plusExpand p.1), bbsDecodeURIComponent (plusExpand p.2) with
  | some k, some v => some (k, v)
  | _, _ => none

/-- Node's `addKeyVal`: a first occurrence appends a fresh entry, a
repeated key appends the value to that key's array. -/
def addKeyVal (acc : List (String × List String)) (k v : String) :
    List (String × List String) :=
  if acc.any (fun p => p.1 == k) then
    acc.map (fun p => if p.1 == k then (p.1, p.2 ++ [v]) else p)
  else acc ++ [(k, [v])]

/-- The segment loop with the `maxKeys` pair budget. -/
def qsParseGo : List (List Nat) → Nat → List (String × List String) →
    Option (List (String × List String))
  | _, 0, acc => some acc
  | [], _, acc => some acc
  | seg :: rest, b + 1, acc =>
    if seg = [] then qsParseGo rest b acc
    else
      match parsePair seg with
      | some kv => qsParseGo rest b (addKeyVal acc kv.1 kv.2)
      | none => none

/-- `querystring.parse(body.toString('latin1'), '&', '=', {decodeURIComponent})`. -/
def qsParseGrouped (input : List Nat) : Option (List (String × List String)) :=
  qsParseGo (splitSegs input) 1000 []

/-- JS array-to-string coercion used by the `URLSearchParams` record
conversion: values joined with commas (a single value stays itself). -/
def joinComma (vs : List String) : String := String.intercalate "," vs

/-- `new URLSearchParams(decodedFields as Record<string, string>)`. -/
def toFormData (m : List (String × List String)) : List (String × String) :=
  m.map (fun p => (p.1, joinComma p.2))

/-- `URLSearchParams.get(name)`: value of the first matching entry. -/
def formDataGet (fd : List (String × String)) (k : String) : Option String :=
  (fd.find? (fun p => p.1 == k)).map (fun p => p.2)

/-- The full decoder: raw body bytes to the `URLSearchParams` mapping the
POST handler reads its fields from. -/
def decodeFormBody (input : List Nat) : Option (List (String × String)) :=
  (qsParseGrouped input).map toFormData

/-! Fault-free forms of the same pipeline.  The indexed unescape loop
never faults (`percentDecodeBytesGo_eq` below), so the pipeline is equal
to the following total functions, which concrete statements evaluate. -/

/-- latin1 view of an ASCII string as body bytes (test inputs). -/
def latin1Bytes (s : String) : List Nat := s.data.map Char.toNat

/-- The callback, through the structural unescape loop. -/
def bbsDecodeL (input : List Nat) : String :=
  heDecode (incrementalSjisDecode input.length (percentDecodeBytesL input))

def parsePairL (seg : List Nat) : String × String :=
  let p := splitFirstEq seg
  (bbsDecodeL (plusExpand p.1), bbsDecodeL (plusExpand p.2))

def qsParseGoL : List (List Nat) → Nat → List (String × List String) →
    List (String × List String)
  | _, 0, acc => acc
  | [], _, acc => acc
  | seg :: rest, b + 1, acc =>
    if seg = [] then qsParseGoL rest b acc
    else qsParseGoL rest b (addKeyVal acc (parsePairL seg).1 (parsePairL seg).2)

def qsParseGroupedL (input : List Nat) : List (String × List String) :=
  qsParseGoL (splitSegs input) 1000 []

def decodeFormBodyL (input : List Nat) : List (String × String) :=
  toFormData (qsParseGroupedL input)

/-- The mixed field value of the end-to-end scenario: percent-escaped
Shift_JIS `テスト` (`%83e%83X%83g`) followed by the raw UTF-8 bytes of
the emoji 🎉 (`F0 9F 8E 89`). -/
def mixedSjisEmojiBytes : List Nat :=
  latin1Bytes "%83e%83X%83g" ++ [240, 159, 142, 137]

/-! ### The POST dispatch of the legacy gateway

After decoding, the handler reads the fields

```
boardIdFromForm = formData.get('bbs') || '';
const threadKey  = formData.get('key') || '';
const body       = formData.get('MESSAGE') || '';
const authorName = formData.get('FROM') || '';
const subject    = formData.get('subject') || '';
```

and dispatches: missing `bbs`/`MESSAGE` ⇒ immediate validation error; a
truthy (nonempty) `subject` ⇒ `POST /posts` (thread creation, subject as
title); otherwise a comment, which requires a nonempty `key`, resolved
first through `GET /posts/by-timestamp/{key}` and then `POST /comments`.
The model returns the ordered list of backend calls made together with
the outcome, so "no external call" is the statement `trace = []`.  A
response body that fails `JSON.parse` (modelled by `postId = none`)
throws, landing in the handler's outer `catch`
(`unexpectedError`). -/

/-- `formData.get(k) || ''`. -/
def fieldsGet (fields : List (String × String)) (k : String) : String :=
  (formDataGet fields k).getD ""

inductive ApiCall where
  | createThread (boardId title body : String) (authorName : Option String)
  | byTimestamp (threadKey boardId : String)
  | createComment (postId : Nat) (body : String) (authorName : Option String)
deriving Repr, DecidableEq

/-- What the handler consumes from a backend response: the status code
and the `id` of the JSON-parsed `Post` body (`none`: body does not parse
— `JSON.parse` would throw). -/
structure ApiResult where
  statusCode : Nat
  postId : Option Nat
deriving Repr, DecidableEq

inductive CgiOutcome where
  | success (message boardId threadKey : String)
  | failure (message boardId : String) (apiStatus : Option Nat)
  | unexpectedError (boardId : String)
deriving Repr, DecidableEq

/-- `authorName || undefined`. -/
def authorOpt (s : String) : Option String := if s = "" then none else some s

/-- The POST handler's dispatch, parameterised by the backend (`oracle`).
Returns the calls actually issued, in order, and the outcome. -/
def bbsPost (fields : List (String × String)) (oracle : ApiCall → ApiResult) :
    List ApiCall × CgiOutcome :=
  let bbs := fieldsGet fields "bbs"
  let threadKey := fieldsGet fields "key"
  let body := fieldsGet fields "MESSAGE"
  let authorName := fieldsGet fields "FROM"
  let subject := fieldsGet fields "subject"
  if bbs = "" ∨ body = "" then
    ([], .failure "板IDまたは本文がありません。" bbs none)
  else if subject ≠ "" then
    let call := ApiCall.createThread bbs subject body (authorOpt authorName)
    let resp := oracle call
    if 400 ≤ resp.statusCode then
      ([call], .failure "スレッドの作成に失敗しました。" bbs (some resp.statusCode))
    else
      match resp.postId with
      | some pid => ([call], .success "スレッドを作成しました。" bbs (toString pid))
      | none => ([call], .unexpectedError bbs)
  else if threadKey = "" then
    ([], .failure "スレッドが指定されていません。" bbs none)
  else
    let getCall := ApiCall.byTimestamp threadKey bbs
    let postRes := oracle getCall
    if 400 ≤ postRes.statusCode then
      ([getCall],
        .failure
          (if postRes.statusCode = 404 then "該当のスレッドが見つかりません。"
           else "スレッド情報の取得に失敗しました。") bbs (some postRes.statusCode))
    else
      match postRes.postId with
      | none => ([getCall], .unexpectedError bbs)
      | some pid =>
        let cCall := ApiCall.createComment pid body (authorOpt authorName)
        let cResp := oracle cCall
        if 400 ≤ cResp.statusCode then
          ([getCall, cCall], .failure "レスの投稿に失敗しました。" bbs (some cResp.statusCode))
        else
          ([getCall, cCall], .success "レスを投稿しました。" bbs threadKey)

/-! ### CGI response builders

`createCgiSuccessResponse` / `createCgiErrorResponse` (bbs.cgi) build a
Shift_JIS-encoded HTML body and set *only* a `Content-Type` header on the
`Response`; `createSjisResponse` (the shared legacy-format helper used by
the read-side endpoints: subject.txt, SETTING.TXT, dat, bbsmenu) also
sets `Content-Length` explicitly.  Cookie forwarding
(`setCookieParser` / `cookies.set`) is routed through SvelteKit's cookie
API, not these header lists, and is not modelled. -/

structure CgiResponse where
  status : Nat
  headers : List (String × String)
  body : List Nat
deriving Repr, DecidableEq

def cgiRedirectUrl (boardId threadKey : String) : String :=
  "../read.cgi/" ++ boardId ++ "/" ++ threadKey ++ "/"

def cgiSuccessHtmlPre : String :=
  "\n<!DOCTYPE HTML PUBLIC \"-//W3C//DTD HTML 4.01 Transitional//EN\">\n<html>\n<head>\n<title>書きこみました。</title>\n<meta http-equiv=\"refresh\" content=\""

def cgiSuccessHtmlMid : String :=
  "\">\n</head>\n<body>\n書きこみました。<br><br>\n<a href=\""

def cgiSuccessHtmlPost : String :=
  "\" target=\"_top\">画面を切り替える</a>\n</body>\n</html>\n"

/-- The success template (`content="2;URL=${redirectUrl}"`, and the same
URL again in the manual link). -/
def cgiSuccessHtml (boardId threadKey : String) : String :=
  cgiSuccessHtmlPre ++ "2;URL=" ++ cgiRedirectUrl boardId threadKey ++
    cgiSuccessHtmlMid ++ cgiRedirectUrl boardId threadKey ++ cgiSuccessHtmlPost

/-- `createCgiSuccessResponse` (the `message` argument is only logged;
the body is the fixed template). -/
def createCgiSuccessResponse (message boardId threadKey : String) : CgiResponse :=
  let _ := message
  { status := 200
    headers := [("Content-Type", "text/html; charset=Shift_JIS")]
    body := sjisEncode (cgiSuccessHtml boardId threadKey) }

/-- What `createCgiErrorResponse` sees of a backend error body:
`notJson` — `JSON.parse` threw; `parsedError e` — it parsed, with `e`
the `error` property (absent ⇒ `none`). -/
inductive JsonBodyOutcome where
  | notJson
  | parsedError (e : Option String)
deriving Repr, DecidableEq

structure ErrApiResponse where
  statusCode : Nat
  bodyText : String
  json : JsonBodyOutcome
deriving Repr, DecidableEq

/-- `errorMessage`/`statusCode` before the 401 override: no API response
⇒ (default, 400); otherwise `errorJson.error || default` on a parsed
body, `body || default` on an unparsable one, default on an empty one. -/
def cgiErrorBase (defaultMessage : String) : Option ErrApiResponse → String × Nat
  | none => (defaultMessage, 400)
  | some r =>
    let m :=
      if r.bodyText = "" then defaultMessage
      else
        match r.json with
        | .parsedError (some e) => if e = "" then defaultMessage else e
        | .parsedError none => defaultMessage
        | .notJson => r.bodyText
    (m, r.statusCode)

def cgiAuthUrl (origin : String) : String := origin ++ "/auth/register"

def cgiAuthPromptPre : String := "投稿するためには、<a href=\""

def cgiAuthPromptMid : String := "\" target=\"_blank\">"

def cgiAuthPromptPost : String := "</a> にて認証して、専ブラ連携トークンを取得してください"

/-- The templated not-yet-verified message substituted on a 401. -/
def cgiAuthPrompt (origin : String) : String :=
  cgiAuthPromptPre ++ cgiAuthUrl origin ++ cgiAuthPromptMid ++ cgiAuthUrl origin ++
    cgiAuthPromptPost

def cgiErrorHtmlPre : String :=
  "\n<!DOCTYPE HTML PUBLIC \"-//W3C//DTD HTML 4.01 Transitional//EN\">\n<html>\n<head>\n<title>ERROR!</title>\n</head>\n<body>\nERROR: "

def cgiErrorHtmlPost : String := "<br><br>\n</body>\n</html>\n"

def cgiErrorHtml (errorMessage : String) : String :=
  cgiErrorHtmlPre ++ errorMessage ++ cgiErrorHtmlPost

/-- `createCgiErrorResponse` (the `boardId` argument is only logged). -/
def createCgiErrorResponse (defaultMessage boardId : String)
    (apiResponse : Option ErrApiResponse) (origin : String) : CgiResponse :=
  let _ := boardId
  let base := cgiErrorBase defaultMessage apiResponse
  let errorMessage := if base.2 = 401 then cgiAuthPrompt origin else base.1
  { status := base.2
    headers := [("Content-Type", "text/html; charset=Shift_JIS")]
    body := sjisEncode (cgiErrorHtml errorMessage) }

/-- `createSjisResponse` (shared legacy-format helper): Shift_JIS body
with `Content-Type` and an explicit `Content-Length` in bytes. -/
def createSjisResponse (text contentType : String) (status : Nat)
    (setCookieHeaders : List String) : CgiResponse :=
  let encodedBody := sjisEncode text
  { status
    headers := [("Content-Type", contentType ++ "; charset=Shift_JIS"),
                ("Content-Length", toString encodedBody.length)] ++
      setCookieHeaders.map (fun c => ("set-cookie", c))
    body := encodedBody }

/-- Substring containment, used to state template properties. -/
def StrContains (hay needle : String) : Prop := ∃ l r, hay = l ++ needle ++ r

/-! ### FingerprintHasher (`fingerprint.ts`, `getVisitorId`)

```
const stableValues = STABLE_COMPONENTS.map(key => {
  const component = result.components[key] as Component<any>;
  if (component && component.value) {
    return typeof component.value === 'object'
      ? JSON.stringify(component.value) : String(component.value);
  }
  return '';
}).join(';');
const visitorId = await sha256(stableValues);
```

Component values are modelled by `JsVal` (JS numbers as `Int`; the
floating-point aspects of JS numbers are outside this embedding and no
statement below depends on them).  A payload maps a component name to the
component's `value` property — `none` at either level models an absent
component / an absent `value` (error components). -/

inductive JsVal where
  | vUndef
  | vNull
  | vBool (b : Bool)
  | vNum (n : Int)
  | vStr (s : String)
  | vArr (elems : List JsVal)
  | vObj (fields : List (String × JsVal))

/-- JS truthiness of a value. -/
def jsTruthy : JsVal → Bool
  | .vUndef => false
  | .vNull => false
  | .vBool b => b
  | .vNum n => n != 0
  | .vStr s => s != ""
  | .vArr _ => true
  | .vObj _ => true

/-- `typeof v === 'object'` (true for `null`, arrays and objects). -/
def jsTypeofObject : JsVal → Bool
  | .vNull => true
  | .vArr _ => true
  | .vObj _ => true
  | _ => false

/-- Lowercase hex digit for a value below 16. -/
def hexDigitChar (n : Nat) : Char :=
  if n < 10 then Char.ofNat (48 + n) else Char.ofNat (87 + n)

def jsonEscapeChar (c : Char) : List Char :=
  if c = '"' then ['\\', '"']
  else if c = '\\' then ['\\', '\\']
  else if c.toNat < 32 then
    "\\u00".data ++ [hexDigitChar (c.toNat >>> 4), hexDigitChar (c.toNat &&& 15)]
  else [c]

def jsonQuote (s : String) : String :=
  "\"" ++ String.mk (s.data.map jsonEscapeChar).flatten ++ "\""

mutual
/-- `JSON.stringify` over the model values (insertion order, no
whitespace — JS object property order for the string keys occurring
here). -/
def jsonStringify : JsVal → String
  | .vUndef => "null"
  | .vNull => "null"
  | .vBool b => if b then "true" else "false"
  | .vNum n => toString n
  | .vStr s => jsonQuote s
  | .vArr xs => "[" ++ String.intercalate "," (jsonStringifyList xs) ++ "]"
  | .vObj fs => "\x7b" ++ String.intercalate "," (jsonStringifyFields fs) ++ "\x7d"

def jsonStringifyList : List JsVal → List String
  | [] => []
  | v :: vs =>
    (match v with
     | .vUndef => "null"
     | _ => jsonStringify v) :: jsonStringifyList vs

def jsonStringifyFields : List (String × JsVal) → List String
  | [] => []
  | (k, v) :: fs =>
    match v with
    | .vUndef => jsonStringifyFields fs
    | _ => (jsonQuote k ++ ":" ++ jsonStringify v) :: jsonStringifyFields fs
end

/-- JS `String(v)` for the values that can reach it in
`componentContribution` (non-object truthy values: strings, numbers,
`true`).  The remaining arms are unreachable there: objects take the
`JSON.stringify` branch and falsy values the `''` branch. -/
def jsToString : JsVal → String
  | .vStr s => s
  | .vNum n => toString n
  | .vBool b => if b then "true" else "false"
  | .vNull => "null"
  | .vUndef => "undefined"
  | .vArr _ => ""
  | .vObj _ => ""

/-- A fingerprint payload: component name ↦ the component's `value`
property (`none` = absent). -/
def FpPayload := List (String × Option JsVal)

def fpLookup (payload : FpPayload) (name : String) : Option (Option JsVal) :=
  (payload.find? (fun p => p.1 == name)).map (fun p => p.2)

/-- One component's contribution to the joined string: `''` when the
component or its value is missing or falsy, else the deterministic
stringification. -/
def componentContribution (payload : FpPayload) (name : String) : String :=
  match fpLookup payload name with
  | none => ""
  | some none => ""
  | some (some v) =>
    if jsTruthy v then
      (if jsTypeofObject v then jsonStringify v else jsToString v)
    else ""

/-- `STABLE_COMPONENTS`: the three spoof-resistant components that are
hashed; everything else in the payload is ignored. -/
def stableComponents : List String := ["webgl", "canvas", "audio"]

def stableValues (payload : FpPayload) : String :=
  String.intercalate ";" (stableComponents.map (componentContribution payload))

/-- `new TextEncoder().encode(message)`. -/
def utf8EncodeChar (c : Char) : List Nat :=
  let n := c.toNat
  if n < 128 then [n]
  else if n < 2048 then [192 + n / 64, 128 + n % 64]
  else if n < 65536 then [224 + n / 4096, 128 + n / 64 % 64, 128 + n % 64]
  else [240 + n / 262144, 128 + n / 4096 % 64, 128 + n / 64 % 64, 128 + n % 64]

def utf8Encode (s : String) : List Nat := (s.data.map utf8EncodeChar).flatten

/-! `crypto.subtle.digest('SHA-256', bytes)` — FIPS 180-4 SHA-256 over
byte lists, 32-bit words as `Nat` reduced mod `2^32`. -/

def w32 (n : Nat) : Nat := n % 4294967296

def rotr32 (k x : Nat) : Nat := w32 ((x >>> k) ||| (x <<< (32 - k)))

def shaCh (x y z : Nat) : Nat := (x &&& y) ^^^ ((x ^^^ 4294967295) &&& z)

def shaMaj (x y z : Nat) : Nat := (x &&& y) ^^^ (x &&& z) ^^^ (y &&& z)

def shaBigSigma0 (x : Nat) : Nat := rotr32 2 x ^^^ rotr32 13 x ^^^ rotr32 22 x

def shaBigSigma1 (x : Nat) : Nat := rotr32 6 x ^^^ rotr32 11 x ^^^ rotr32 25 x

def shaSmallSigma0 (x : Nat) : Nat := rotr32 7 x ^^^ rotr32 18 x ^^^ (x >>> 3)

def shaSmallSigma1 (x : Nat) : Nat := rotr32 17 x ^^^ rotr32 19 x ^^^ (x >>> 10)

def sha256K : List Nat :=
  [1116352408, 1899447441, 3049323471, 3921009573,
   961987163, 1508970993, 2453635748, 2870763221,
   3624381080, 310598401, 607225278, 1426881987,
   1925078388, 2162078206, 2614888103, 3248222580,
   3835390401, 4022224774, 264347078, 604807628,
   770255983, 1249150122, 1555081692, 1996064986,
   2554220882, 2821834349, 2952996808, 3210313671,
   3336571891, 3584528711, 113926993, 338241895,
   666307205, 773529912, 1294757372, 1396182291,
   1695183700, 1986661051, 2177026350, 2456956037,
   2730485921, 2820302411, 3259730800, 3345764771,
   3516065817, 3600352804, 4094571909, 275423344,
   430227734, 506948616, 659060556, 883997877,
   958139571, 1322822218, 1537002063, 1747873779,
   1955562222, 2024104815, 2227730452, 2361852424,
   2428436474, 2756734187, 3204031479, 3329325298]

structure Sha256State where
  a : Nat
  b : Nat
  c : Nat
  d : Nat
  e : Nat
  f : Nat
  g : Nat
  h : Nat
deriving Repr, DecidableEq

def sha256H0 : Sha256State :=
  ⟨1779033703,
   3144134277,
   1013904242,
   2773480762,
   1359893119,
   2600822924,
   528734635,
   1541459225⟩

/-- `k` big-endian bytes of `n`. -/
def natToBytesBE : Nat → Nat → List Nat
  | 0, _ => []
  | k + 1, n => (n >>> (8 * k)) % 256 :: natToBytesBE k n

def bytesToWords : List Nat → List Nat
  | b1 :: b2 :: b3 :: b4 :: rest =>
    (((b1 * 256 + b2) * 256 + b3) * 256 + b4) :: bytesToWords rest
  | _ => []

def sha256Pad (msg : List Nat) : List Nat :=
  msg ++ [128] ++ List.replicate ((119 - msg.length % 64) % 64) 0 ++
    natToBytesBE 8 (8 * msg.length)

def sha256Chunks : List Nat → List (List Nat)
  | [] => []
  | b :: rest => (b :: rest).take 64 :: sha256Chunks ((b :: rest).drop 64)
termination_by l => l.length
decreasing_by simp [List.length_drop]; omega

def shaExtendStep (w : List Nat) : List Nat :=
  let n := w.length
  w ++ [w32 (w.getD (n - 16) 0 + shaSmallSigma0 (w.getD (n - 15) 0) +
    w.getD (n - 7) 0 + shaSmallSigma1 (w.getD (n - 2) 0))]

def shaSchedule (w0 : List Nat) : List Nat :=
  (List.range 48).foldl (fun w _ => shaExtendStep w) w0

def shaCompressStep (st : Sha256State) (kw : Nat × Nat) : Sha256State :=
  let t1 := w32 (st.h + shaBigSigma1 st.e + shaCh st.e st.f st.g + kw.1 + kw.2)
  let t2 := w32 (shaBigSigma0 st.a + shaMaj st.a st.b st.c)
  ⟨w32 (t1 + t2), st.a, st.b, st.c, w32 (st.d + t1), st.e, st.f, st.g⟩

def shaProcessChunk (st : Sha256State) (chunk : List Nat) : Sha256State :=
  let w := shaSchedule (bytesToWords chunk)
  let t := (sha256K.zip w).foldl shaCompressStep st
  ⟨w32 (st.a + t.a), w32 (st.b + t.b), w32 (st.c + t.c), w32 (st.d + t.d),
   w32 (st.e + t.e), w32 (st.f + t.f), w32 (st.g + t.g), w32 (st.h + t.h)⟩

def sha256 (msg : List Nat) : List Nat :=
  let fin := (sha256Chunks (sha256Pad msg)).foldl shaProcessChunk sha256H0
  natToBytesBE 4 fin.a ++ natToBytesBE 4 fin.b ++ natToBytesBE 4 fin.c ++
    natToBytesBE 4 fin.d ++ natToBytesBE 4 fin.e ++ natToBytesBE 4 fin.f ++
    natToBytesBE 4 fin.g ++ natToBytesBE 4 fin.h

def hexOfBytes : List Nat → List Char
  | [] => []
  | b :: rest => hexDigitChar (b / 16 % 16) :: hexDigitChar (b % 16) :: hexOfBytes rest

def sha256Hex (msg : List Nat) : String := String.mk (hexOfBytes (sha256 msg))

/-- `getVisitorId` (browser path): join the three stable component
contributions with `';'` and hash. -/
def getVisitorId (payload : FpPayload) : String :=
  sha256Hex (utf8Encode (stableValues payload))

/-! ### The rate-limit lock table

From the migration (under `src/`):

```
CREATE TABLE rate_limit_locks (
    target_key TEXT PRIMARY KEY,
    rule_id INTEGER NOT NULL REFERENCES rate_limit_rules(id) ON DELETE CASCADE,
    expires_at TIMESTAMPTZ NOT NULL
);
```

`target_key` is the primary key, so a table state is valid only when its
keys are pairwise distinct (`locksKeyUnique`).  The backend code that
writes this table is not part of `src/`; its write operation is modelled
from the spec below. -/

structure RateLimitLockRow where
  targetKey : String
  ruleId : Nat
  expiresAt : Nat
deriving Repr, DecidableEq

/-- The `PRIMARY KEY (target_key)` constraint. -/
def locksKeyUnique (t : List RateLimitLockRow) : Prop :=
  (t.map (fun r => r.targetKey)).Nodup

/-- Modelled from the spec: the backend lock writer (not under `src/`;
only the table DDL is) uses "upsert-on-conflict semantics" with "at most
one active lock per target key (latest expiry wins on conflict)" — an
`INSERT … ON CONFLICT (target_key) DO UPDATE` keeping the later
`expires_at`. -/
def upsertLock (t : List RateLimitLockRow) (r : RateLimitLockRow) :
    List RateLimitLockRow :=
  if t.any (fun row => row.targetKey == r.targetKey) then
    t.map (fun row =>
      if row.targetKey == r.targetKey then
        { r with expiresAt := max row.expiresAt r.expiresAt }
      else row)
  else t ++ [r]

/-- Expired locks are deleted by the periodic cleanup (and ignored at
read time). -/
def purgeExpiredLocks (t : List RateLimitLockRow) (now : Nat) :
    List RateLimitLockRow :=
  t.filter (fun row => now < row.expiresAt)

/-- Admin override: manually clear the lock of one key. -/
def clearLock (t : List RateLimitLockRow) (key : String) :
    List RateLimitLockRow :=
  t.filter (fun row => row.targetKey != key)

/-- Storage states reachable from the empty table through the lock
operations (any interleaving of concurrent requests is some such
sequence, by the storage layer's transactional guarantees). -/
inductive LocksReachable : List RateLimitLockRow → Prop where
  | init : LocksReachable []
  | upsert (t r) : LocksReachable t → LocksReachable (upsertLock t r)
  | purge (t now) : LocksReachable t → LocksReachable (purgeExpiredLocks t now)
  | clear (t key) : LocksReachable t → LocksReachable (clearLock t key)

def lockFor (t : List RateLimitLockRow) (key : String) : Option RateLimitLockRow :=
  t.find? (fun row => row.targetKey == key)

/-! ### `escapeDatField` (legacy-format helper)

```
export function escapeDatField(text: string | null | undefined): string {
  if (!text) return '';
  return text
    .replace(/&/g, '&amp;')
    .replace(/</g, '&lt;')
    .replace(/\r?\n/g, ' ');
}
```

The three `.replace` passes are composed in order; `/\r?\n/g` is the
usual leftmost, non-overlapping global scan. -/

def escAmp (cs : List Char) : List Char :=
  (cs.map (fun c => if c = '&' then "&amp;".data else [c])).flatten

def escLt (cs : List Char) : List Char :=
  (cs.map (fun c => if c = '<' then "&lt;".data else [c])).flatten

/-- `/\r?\n/g` → `' '`: a LF, optionally preceded by CR, becomes one
space; a CR not followed by LF does not match. -/
def escNl : List Char → List Char
  | [] => []
  | c1 :: c2 :: rest =>
    if c1 = '\r' ∧ c2 = '\n' then ' ' :: escNl rest
    else if c1 = '\n' then ' ' :: escNl (c2 :: rest)
    else c1 :: escNl (c2 :: rest)
  | [c1] => if c1 = '\n' then [' '] else [c1]

/-- `escapeDatField`; `none` models `null`/`undefined`, and the JS
falsiness test `!text` also sends `""` to `""`. -/
def escapeDatField : Option String → String
  | none => ""
  | some s => if s = "" then "" else String.mk (escNl (escLt (escAmp s.data)))

/-! ## Theorems -/

/-- The indexed while-loop and its structural form agree: starting the
loop at index `i` never faults and produces exactly the structural
decode of the remaining bytes. -/
theorem percentDecodeBytesGo_eq (buf : List Nat) (i : Nat) :
    percentDecodeBytesGo buf i = some (percentDecodeBytesL (buf.drop i)) := by
  rw [percentDecodeBytesGo]
  by_cases h : i < buf.length
  · simp only [if_pos h]
    have hbi : buf[i]? = some buf[i] := List.getElem?_eq_getElem h
    have hdrop : buf.drop i = buf[i] :: buf.drop (i+1) := List.drop_eq_getElem_cons h
    rw [hbi]
    by_cases hg : buf[i] = 37 ∧ i + 2 < buf.length
    · obtain ⟨hb37, hlen⟩ := hg
      have h1lt : i + 1 < buf.length := by omega
      have hb1 : buf[i+1]? = some buf[i+1] := List.getElem?_eq_getElem h1lt
      have hb2 : buf[i+2]? = some buf[i+2] := List.getElem?_eq_getElem hlen
      have hdrop1 : buf.drop (i+1) = buf[i+1] :: buf.drop (i+2) :=
        List.drop_eq_getElem_cons h1lt
      have hdrop2 : buf.drop (i+2) = buf[i+2] :: buf.drop (i+3) :=
        List.drop_eq_getElem_cons hlen
      simp only [if_pos (And.intro hb37 hlen), hb1, hb2]
      rw [hdrop, hdrop1, hdrop2, hb37]
      cases hp : jsParseIntHex2 (buf[i+1] % 128) (buf[i+2] % 128) with
      | some v =>
        rw [percentDecodeBytesGo_eq buf (i+3)]
        simp [percentDecodeBytesL, hp]
      | none =>
        rw [percentDecodeBytesGo_eq buf (i+1), hdrop1, hdrop2]
        simp [percentDecodeBytesL, hp]
    · simp only [if_neg hg]
      rw [percentDecodeBytesGo_eq buf (i+1), hdrop]
      by_cases h2 : i + 2 < buf.length
      · have hb37 : ¬ buf[i] = 37 := fun hb => hg ⟨hb, h2⟩
        have h1lt : i + 1 < buf.length := by omega
        have hdrop1 : buf.drop (i+1) = buf[i+1] :: buf.drop (i+2) :=
          List.drop_eq_getElem_cons h1lt
        have hdrop2 : buf.drop (i+2) = buf[i+2] :: buf.drop (i+3) :=
          List.drop_eq_getElem_cons h2
        rw [hdrop1, hdrop2]
        simp [percentDecodeBytesL, hb37]
      · have hlen1 : (buf.drop (i+1)).length ≤ 1 := by
          rw [List.length_drop]; omega
        cases hd : buf.drop (i+1) with
        | nil => simp [percentDecodeBytesL]
        | cons x xs =>
          have hxs : xs = [] := by
            rw [hd] at hlen1
            cases xs with
            | nil => rfl
            | cons y ys => simp [List.length_cons] at hlen1
          subst hxs
          simp [percentDecodeBytesL]
  · have hle : buf.length ≤ i := by omega
    simp [if_neg h, List.drop_eq_nil_of_le hle, percentDecodeBytesL]
termination_by buf.length - i
decreasing_by all_goals omega

/-! ### Helper lemmas about the unescape pass -/

theorem hexDigitVal_cases {c v : Nat} (h : hexDigitVal c = some v) :
    (48 ≤ c ∧ c ≤ 57 ∧ v = c - 48) ∨ (65 ≤ c ∧ c ≤ 70 ∧ v = c - 55) ∨
      (97 ≤ c ∧ c ≤ 102 ∧ v = c - 87) := by
  unfold hexDigitVal at h
  split_ifs at h with h1 h2 h3 <;> simp_all

theorem jsParseIntHex2_of_hex {h1 h2 v1 v2 : Nat}
    (hv1 : hexDigitVal h1 = some v1) (hv2 : hexDigitVal h2 = some v2) :
    jsParseIntHex2 (h1 % 128) (h2 % 128) = some (16 * (v1 : Int) + v2) := by
  have hb1 := hexDigitVal_cases hv1
  have hb2 := hexDigitVal_cases hv2
  have hr1 : h1 % 128 = h1 := Nat.mod_eq_of_lt (by omega)
  have hr2 : h2 % 128 = h2 := Nat.mod_eq_of_lt (by omega)
  rw [hr1, hr2]
  have hs : isJsSpace h1 = false := by simp [isJsSpace]; omega
  have h43 : h1 ≠ 43 := by omega
  have h45 : h1 ≠ 45 := by omega
  have h0x : ¬(h1 = 48 ∧ (h2 = 120 ∨ h2 = 88)) := by omega
  simp [jsParseIntHex2, hs, h43, h45, h0x, hv1, hv2]

theorem escTripletByte {v1 v2 : Nat} (hv1 : v1 ≤ 15) (hv2 : v2 ≤ 15) :
    ((16 * (v1 : Int) + v2) % 256).toNat = 16 * v1 + v2 := by
  omega

theorem percentDecodeL_cons_ne (b : Nat) (l : List Nat) (hb : b ≠ 37) :
    percentDecodeBytesL (b :: l) = b :: percentDecodeBytesL l := by
  match l with
  | [] => simp [percentDecodeBytesL]
  | [c] => simp [percentDecodeBytesL]
  | c :: d :: t => simp [percentDecodeBytesL, hb]

theorem percentDecodeL_front (pre t : List Nat) (hp : 37 ∉ pre) :
    percentDecodeBytesL (pre ++ t) = pre ++ percentDecodeBytesL t := by
  induction pre with
  | nil => simp
  | cons b ps ih =>
    have hb : b ≠ 37 := fun h => hp (by rw [h]; exact List.mem_cons_self _ _)
    have hps : 37 ∉ ps := fun h => hp (List.mem_cons_of_mem _ h)
    rw [List.cons_append, percentDecodeL_cons_ne b _ hb, ih hps, List.cons_append]

theorem percentDecodeL_id (l : List Nat) (h : 37 ∉ l) :
    percentDecodeBytesL l = l := by
  have := percentDecodeL_front l [] h
  simpa [percentDecodeBytesL] using this

/-! ### Claim C3 — the percent-unescape pass -/

/-- C3, as stated, is false: the claim says that bytes not forming a
valid `%XX` escape pass through unchanged, but on the input `"%4Z"`
(bytes `25 34 5A`, where `Z` is not a hex digit) JS
`parseInt("4Z", 16)` parses the leading `4` and returns `4`, so the
decoder consumes all three bytes and emits the single byte `0x04`
instead of passing `% 4 Z` through. -/
theorem c3_percent_escape_counterexample :
    percentDecodeBytesGo [37, 52, 90] 0 ≠ some [37, 52, 90] ∧
      percentDecodeBytesGo [37, 52, 90] 0 = some [4] := by
  rw [percentDecodeBytesGo_eq]
  exact ⟨by decide, by decide⟩

/-- C3 (amended): the unescape loop never faults and equals its
structural form; every `%XX` triplet with two hex digits resolves to the
byte `0xXX`; a `%` whose two following (high-bit-stripped) characters
make JS `parseInt` return `NaN` is passed through literally, with
scanning resuming at the next byte; a `%` followed by fewer than two
bytes is passed through literally; and a stretch with no `%` at all is
copied verbatim.  (What the original claim misses: when the two
characters after `%` form a *partial* hex parse — a leading hex digit,
whitespace or a sign — `parseInt` still returns a value, the three bytes
are consumed, and the value mod 256 is emitted; see the
counterexample.) -/
theorem c3_percent_escape_amended :
    (∀ buf, percentDecodeBytesGo buf 0 = some (percentDecodeBytesL buf))
    ∧ (∀ pre p1 p2 post v1 v2, 37 ∉ pre →
        hexDigitVal p1 = some v1 → hexDigitVal p2 = some v2 →
        percentDecodeBytesL (pre ++ 37 :: p1 :: p2 :: post) =
          pre ++ (16 * v1 + v2) :: percentDecodeBytesL post)
    ∧ (∀ pre p1 p2 post, 37 ∉ pre →
        jsParseIntHex2 (p1 % 128) (p2 % 128) = none →
        percentDecodeBytesL (pre ++ 37 :: p1 :: p2 :: post) =
          pre ++ 37 :: percentDecodeBytesL (p1 :: p2 :: post))
    ∧ (∀ pre c, 37 ∉ pre →
        percentDecodeBytesL (pre ++ [37, c]) = pre ++ [37, c] ∧
          percentDecodeBytesL (pre ++ [37]) = pre ++ [37])
    ∧ (∀ l, 37 ∉ l → percentDecodeBytesL l = l) := by
  refine ⟨?_, ?_, ?_, ?_, percentDecodeL_id⟩
  · intro buf
    rw [percentDecodeBytesGo_eq]
    simp
  · intro pre p1 p2 post v1 v2 hpre hv1 hv2
    rw [percentDecodeL_front pre _ hpre]
    have hb1 := hexDigitVal_cases hv1
    have hb2 := hexDigitVal_cases hv2
    have h15a : v1 ≤ 15 := by omega
    have h15b : v2 ≤ 15 := by omega
    simp [percentDecodeBytesL, jsParseIntHex2_of_hex hv1 hv2,
      escTripletByte h15a h15b]
  · intro pre p1 p2 post hpre hnan
    rw [percentDecodeL_front pre _ hpre]
    simp [percentDecodeBytesL, hnan]
  · intro pre c hpre
    constructor
    · rw [percentDecodeL_front pre _ hpre]
      simp [percentDecodeBytesL]
    · rw [percentDecodeL_front pre _ hpre]
      simp [percentDecodeBytesL]

/-- Witness for the amended C3, at `"A%41B"`: `pre = [65]`, hex digits
`4` and `1`, suffix `[66]` — the triplet becomes byte `0x41`. -/
theorem c3_percent_escape_witness :
    percentDecodeBytesL ([65] ++ 37 :: 52 :: 49 :: [66]) =
      [65] ++ (16 * 4 + 1) :: percentDecodeBytesL [66] :=
  c3_percent_escape_amended.2.1 [65] 52 49 [66] 4 1 (by decide) (by decide)
    (by decide)

/-! ### Claim C2 — decoder totality -/

theorem bbsDecodeURIComponent_eq (input : List Nat) :
    bbsDecodeURIComponent input = some (bbsDecodeL input) := by
  unfold bbsDecodeURIComponent bbsDecodeL
  rw [percentDecodeBytesGo_eq]
  simp

theorem parsePair_eq (seg : List Nat) :
    parsePair seg = some (parsePairL seg) := by
  simp [parsePair, parsePairL, bbsDecodeURIComponent_eq]

theorem qsParseGo_eq (segs : List (List Nat)) :
    ∀ b acc, qsParseGo segs b acc = some (qsParseGoL segs b acc) := by
  induction segs with
  | nil => intro b acc; cases b <;> simp [qsParseGo, qsParseGoL]
  | cons seg rest ih =>
    intro b acc
    cases b with
    | zero => simp [qsParseGo, qsParseGoL]
    | succ b' =>
      by_cases hs : seg = []
      · simp [qsParseGo, qsParseGoL, hs, ih]
      · simp [qsParseGo, qsParseGoL, hs, parsePair_eq, ih]

theorem decodeFormBody_eq (input : List Nat) :
    decodeFormBody input = some (decodeFormBodyL input) := by
  simp [decodeFormBody, decodeFormBodyL, qsParseGrouped, qsParseGroupedL,
    qsParseGo_eq]

/-- C2: the legacy form decoder is total — for every input byte
sequence (well-formed or not) it returns a key→value mapping; the
indexed reads of the unescape loop never go out of bounds and no stage
can fail. -/
theorem c2_decoder_total (input : List Nat) :
    ∃ m, decodeFormBody input = some m :=
  ⟨decodeFormBodyL input, decodeFormBody_eq input⟩

/-! ### Claim C1 — the "incremental best-effort" Shift_JIS decode -/

/-- C1 is a code bug: the claim (and the source's own comments) say the
trial-decode loop falls back to raw UTF-8 passthrough "the moment
extension fails", so a field mixing percent-escaped Shift_JIS with raw
UTF-8 emoji bytes decodes with the emoji intact.  But
`iconv.decode(buf, 'shift_jis')` never throws — it substitutes U+FFFD
for unmappable sequences — so the `catch` fallback is dead code, the
loop degenerates to one full-buffer Shift_JIS decode, and the emoji's
UTF-8 bytes (`F0 9F 8E 89`) are consumed as two Shift_JIS double-byte
sequences (garbage), never the emoji.  Evaluated at the claim's own
scenario input: the Shift_JIS part decodes to `テスト`, and the output
does not contain 🎉. -/
theorem c1_incremental_decode_code_bug :
    ∃ s, bbsDecodeURIComponent mixedSjisEmojiBytes = some s ∧
      s.data.take 3 = ['テ', 'ス', 'ト'] ∧ '🎉' ∉ s.data ∧ s ≠ "テスト🎉" := by
  refine ⟨bbsDecodeL mixedSjisEmojiBytes, bbsDecodeURIComponent_eq _, ?_, ?_, ?_⟩
  · decide
  · decide
  · decide

/-! ### Claim C4 — duplicate form keys -/

theorem addKeyVal_nodup (acc : List (String × List String)) (k v : String)
    (h : (acc.map Prod.fst).Nodup) :
    ((addKeyVal acc k v).map Prod.fst).Nodup := by
  unfold addKeyVal
  split_ifs with ha
  · have hf : (Prod.fst ∘ fun p : String × List String =>
        if p.1 == k then (p.1, p.2 ++ [v]) else p) = Prod.fst := by
      funext p
      by_cases hp : p.1 == k <;> simp [Function.comp, hp]
    rw [List.map_map, hf]
    exact h
  · have hk : k ∉ acc.map Prod.fst := by
      intro hmem
      rcases List.mem_map.mp hmem with ⟨p, hp, he⟩
      exact ha (List.any_eq_true.mpr ⟨p, hp, by simp [he]⟩)
    rw [List.map_append, List.nodup_append]
    refine ⟨h, List.nodup_singleton k, ?_⟩
    intro a hmem hin
    have : a = k := by simpa using hin
    exact hk (this ▸ hmem)

theorem qsParseGoL_nodup (segs : List (List Nat)) :
    ∀ b acc, (acc.map Prod.fst).Nodup →
      ((qsParseGoL segs b acc).map Prod.fst).Nodup := by
  induction segs with
  | nil => intro b acc h; cases b <;> simpa [qsParseGoL]
  | cons seg rest ih =>
    intro b acc h
    cases b with
    | zero => simpa [qsParseGoL]
    | succ b' =>
      by_cases hs : seg = []
      · simpa [qsParseGoL, hs] using ih b' acc h
      · simpa [qsParseGoL, hs] using ih b' _ (addKeyVal_nodup acc _ _ h)

theorem toFormData_find (m : List (String × List String))
    (hnd : (m.map Prod.fst).Nodup) (k : String) (vs : List String)
    (hm : (k, vs) ∈ m) :
    formDataGet (toFormData m) k = some (joinComma vs) := by
  induction m with
  | nil => cases hm
  | cons a t ih =>
    rcases List.mem_cons.mp hm with heq | hmem
    · rcases a with ⟨ak, avs⟩
      obtain ⟨hk, hv⟩ : ak = k ∧ avs = vs := by
        have := heq.symm
        exact ⟨congrArg Prod.fst this, congrArg Prod.snd this⟩
      subst hk; subst hv
      simp [formDataGet, toFormData]
    · have hnd' : (t.map Prod.fst).Nodup := (List.nodup_cons.mp hnd).2
      have hne : (a.1 == k) = false := by
        have hnin : a.1 ∉ t.map Prod.fst := (List.nodup_cons.mp hnd).1
        have hkin : k ∈ t.map Prod.fst :=
          List.mem_map.mpr ⟨(k, vs), hmem, rfl⟩
        simp only [beq_eq_false_iff_ne, ne_eq]
        intro he
        exact hnin (he ▸ hkin)
      simpa [formDataGet, toFormData, hne] using ih hnd' hmem

/-- C4, as stated, is false: duplicate keys do not resolve to the last
occurrence.  Node's `querystring.parse` collects the values of a
repeated key into an array, and the `URLSearchParams` record conversion
stringifies that array by joining it with commas — so `"a=1&a=2"` yields
`a ↦ "1,2"`, not `a ↦ "2"`. -/
theorem c4_duplicate_keys_counterexample :
    decodeFormBody (latin1Bytes "a=1&a=2") = some [("a", "1,2")] ∧
      formDataGet [("a", "1,2")] "a" ≠ some "2" := by
  rw [decodeFormBody_eq]
  exact ⟨by decide, by decide⟩

/-- C4 (amended): the decoded body is a mapping from field name to a
single string, and when a field name occurs more than once among the
`&`-delimited pairs, its value is the comma-joined concatenation of all
occurrences' decoded values in order (JS array stringification through
the `URLSearchParams` record conversion), not the last occurrence. -/
theorem c4_duplicate_keys_amended :
    ∀ input m k vs, qsParseGrouped input = some m → (k, vs) ∈ m →
      decodeFormBody input = some (toFormData m) ∧
        formDataGet (toFormData m) k = some (String.intercalate "," vs) := by
  intro input m k vs hq hm
  refine ⟨by simp [decodeFormBody, hq], ?_⟩
  have hnd : (m.map Prod.fst).Nodup := by
    have heq := qsParseGo_eq (splitSegs input) 1000 []
    rw [qsParseGrouped, heq] at hq
    have hmq : m = qsParseGoL (splitSegs input) 1000 [] :=
      (Option.some_injective _ hq.symm)
    rw [hmq]
    exact qsParseGoL_nodup _ 1000 [] (by simp)
  exact toFormData_find m hnd k vs hm

/-- Witness for the amended C4 at `"a=1&a=2"`. -/
theorem c4_duplicate_keys_witness :
    decodeFormBody (latin1Bytes "a=1&a=2") =
        some (toFormData [("a", ["1", "2"])]) ∧
      formDataGet (toFormData [("a", ["1", "2"])]) "a" =
        some (String.intercalate "," ["1", "2"]) :=
  c4_duplicate_keys_amended (latin1Bytes "a=1&a=2") [("a", ["1", "2"])] "a"
    ["1", "2"] (by rw [qsParseGrouped, qsParseGo_eq]; decide) (by decide)

/-! ### Claim C7 — validation errors reject without any backend call -/

/-- C7: when `bbs` or `MESSAGE` is missing (decodes to `''`), or when a
comment submission (empty `subject`) is missing its thread `key`, the
gateway answers with the validation-error response immediately: the list
of backend calls issued is empty (and the gateway itself performs no
writes, so nothing is persisted). -/
theorem c7_validation_rejects_without_calls :
    (∀ fields oracle,
        fieldsGet fields "bbs" = "" ∨ fieldsGet fields "MESSAGE" = "" →
        bbsPost fields oracle =
          ([], CgiOutcome.failure "板IDまたは本文がありません。"
            (fieldsGet fields "bbs") none))
    ∧ (∀ fields oracle,
        fieldsGet fields "bbs" ≠ "" → fieldsGet fields "MESSAGE" ≠ "" →
        fieldsGet fields "subject" = "" → fieldsGet fields "key" = "" →
        bbsPost fields oracle =
          ([], CgiOutcome.failure "スレッドが指定されていません。"
            (fieldsGet fields "bbs") none)) := by
  constructor
  · intro fields oracle h
    simp only [bbsPost]
    rw [if_pos h]
  · intro fields oracle hb hm hsub hk
    simp only [bbsPost]
    rw [if_neg (by simp [hb, hm]), if_neg (by simp [hsub]), if_pos hk]

/-- Witness for C7 at the empty form. -/
theorem c7_validation_witness :
    bbsPost [] (fun _ => ⟨200, none⟩) =
      ([], CgiOutcome.failure "板IDまたは本文がありません。"
        (fieldsGet [] "bbs") none) :=
  c7_validation_rejects_without_calls.1 [] (fun _ => ⟨200, none⟩)
    (Or.inl rfl)

/-! ### Claim C9 — dispatch on the `subject` field -/

/-- C9: a nonempty `subject` always routes to thread creation (one call,
to the posts endpoint, with the subject as title); an empty `subject`
routes to comment creation, which requires a nonempty `key` and resolves
it through the by-timestamp lookup before the comment endpoint is
called. -/
theorem c9_subject_dispatch :
    ∀ fields oracle,
      fieldsGet fields "bbs" ≠ "" → fieldsGet fields "MESSAGE" ≠ "" →
      ((fieldsGet fields "subject" ≠ "" →
          (bbsPost fields oracle).1 =
            [ApiCall.createThread (fieldsGet fields "bbs")
              (fieldsGet fields "subject") (fieldsGet fields "MESSAGE")
              (authorOpt (fieldsGet fields "FROM"))])
        ∧ (fieldsGet fields "subject" = "" → fieldsGet fields "key" = "" →
            (bbsPost fields oracle).1 = [])
        ∧ (fieldsGet fields "subject" = "" → fieldsGet fields "key" ≠ "" →
            ∀ pid,
              (oracle (ApiCall.byTimestamp (fieldsGet fields "key")
                (fieldsGet fields "bbs"))).statusCode < 400 →
              (oracle (ApiCall.byTimestamp (fieldsGet fields "key")
                (fieldsGet fields "bbs"))).postId = some pid →
              (bbsPost fields oracle).1 =
                [ApiCall.byTimestamp (fieldsGet fields "key")
                  (fieldsGet fields "bbs"),
                 ApiCall.createComment pid (fieldsGet fields "MESSAGE")
                  (authorOpt (fieldsGet fields "FROM"))])) := by
  intro fields oracle hb hm
  refine ⟨?_, ?_, ?_⟩
  · intro hsub
    simp only [bbsPost]
    rw [if_neg (by simp [hb, hm]), if_pos hsub]
    split
    · rfl
    · split <;> rfl
  · intro hsub hk
    simp only [bbsPost]
    rw [if_neg (by simp [hb, hm]), if_neg (by simp [hsub]), if_pos hk]
  · intro hsub hk pid hst hpid
    simp only [bbsPost]
    rw [if_neg (by simp [hb, hm]), if_neg (by simp [hsub]), if_neg hk,
      if_neg (by omega), hpid]
    split
    · rename_i heq
      simp at heq
    · rename_i b heq
      obtain rfl : b = pid := by injection heq with h; exact h.symm
      split <;> rfl

/-- Witness for C9 at a thread-creation form. -/
theorem c9_subject_dispatch_witness :
    (bbsPost [("bbs", "1"), ("MESSAGE", "m"), ("subject", "t")]
      (fun _ => ⟨200, some 5⟩)).1 =
      [ApiCall.createThread
        (fieldsGet [("bbs", "1"), ("MESSAGE", "m"), ("subject", "t")] "bbs")
        (fieldsGet [("bbs", "1"), ("MESSAGE", "m"), ("subject", "t")] "subject")
        (fieldsGet [("bbs", "1"), ("MESSAGE", "m"), ("subject", "t")] "MESSAGE")
        (authorOpt
          (fieldsGet [("bbs", "1"), ("MESSAGE", "m"), ("subject", "t")] "FROM"))] :=
  (c9_subject_dispatch [("bbs", "1"), ("MESSAGE", "m"), ("subject", "t")]
    (fun _ => ⟨200, some 5⟩) (by decide) (by decide)).1 (by decide)

/-! ### Claim C5 — response shape of the legacy gateway -/

/-- C5, as stated, is false on one point: the bbs.cgi success and error
responses do *not* set `Content-Length` explicitly — their header list
is exactly `[Content-Type]`.  (Only `createSjisResponse`, used by the
read-side legacy endpoints, sets it.) -/
theorem c5_content_length_counterexample :
    "Content-Length" ∉
        ((createCgiSuccessResponse "スレッドを作成しました。" "1" "123").headers.map
          Prod.fst) ∧
      (createCgiSuccessResponse "スレッドを作成しました。" "1" "123").headers.map
          Prod.fst = ["Content-Type"] := by
  constructor <;> decide

/-- C5 (amended): every gateway response is a fixed HTML template
encoded in Shift_JIS; a success response is a 200 whose template carries
the 2-second meta-refresh pointer `2;URL=../read.cgi/{board}/{key}/`; a
failure response carries the human-readable reason, and a 401 from the
backend is rewritten to the templated message pointing at
`{origin}/auth/register`.  However `Content-Length` is set explicitly
only by `createSjisResponse` (the read-side legacy endpoints); the
bbs.cgi success/error builders set only `Content-Type`. -/
theorem c5_response_shape_amended :
    (∀ message boardId threadKey,
        (createCgiSuccessResponse message boardId threadKey).status = 200 ∧
        (createCgiSuccessResponse message boardId threadKey).headers =
          [("Content-Type", "text/html; charset=Shift_JIS")] ∧
        (createCgiSuccessResponse message boardId threadKey).body =
          sjisEncode (cgiSuccessHtml boardId threadKey) ∧
        StrContains (cgiSuccessHtml boardId threadKey)
          ("2;URL=" ++ cgiRedirectUrl boardId threadKey))
    ∧ (∀ dm boardId origin,
        (createCgiErrorResponse dm boardId none origin).status = 400 ∧
        (createCgiErrorResponse dm boardId none origin).headers =
          [("Content-Type", "text/html; charset=Shift_JIS")] ∧
        (createCgiErrorResponse dm boardId none origin).body =
          sjisEncode (cgiErrorHtml dm) ∧
        StrContains (cgiErrorHtml dm) dm)
    ∧ (∀ dm boardId r origin, r.statusCode = 401 →
        (createCgiErrorResponse dm boardId (some r) origin).status = 401 ∧
        (createCgiErrorResponse dm boardId (some r) origin).body =
          sjisEncode (cgiErrorHtml (cgiAuthPrompt origin)) ∧
        StrContains (cgiAuthPrompt origin) (cgiAuthUrl origin))
    ∧ (∀ text contentType status cookies,
        ("Content-Length", toString (sjisEncode text).length) ∈
          (createSjisResponse text contentType status cookies).headers ∧
        (createSjisResponse text contentType status cookies).body =
          sjisEncode text) := by
  refine ⟨?_, ?_, ?_, ?_⟩
  · intro message boardId threadKey
    refine ⟨rfl, rfl, rfl, ?_⟩
    exact ⟨cgiSuccessHtmlPre,
      cgiSuccessHtmlMid ++ cgiRedirectUrl boardId threadKey ++ cgiSuccessHtmlPost,
      by simp [cgiSuccessHtml, String.append_assoc]⟩
  · intro dm boardId origin
    refine ⟨rfl, rfl, rfl, ?_⟩
    exact ⟨cgiErrorHtmlPre, cgiErrorHtmlPost,
      by simp [cgiErrorHtml, String.append_assoc]⟩
  · intro dm boardId r origin h401
    refine ⟨?_, ?_, ?_⟩
    · simp [createCgiErrorResponse, cgiErrorBase, h401]
    · simp [createCgiErrorResponse, cgiErrorBase, h401]
    · exact ⟨cgiAuthPromptPre,
        cgiAuthPromptMid ++ cgiAuthUrl origin ++ cgiAuthPromptPost,
        by simp [cgiAuthPrompt, String.append_assoc]⟩
  · intro text contentType status cookies
    exact ⟨by simp [createSjisResponse], rfl⟩

/-- Witness for the amended C5: the 401 rewrite at a concrete backend
response and origin. -/
theorem c5_response_shape_witness :
    (createCgiErrorResponse "err" "1"
        (some ⟨401, "x", JsonBodyOutcome.notJson⟩) "https://example.com").status =
        401 ∧
      (createCgiErrorResponse "err" "1"
        (some ⟨401, "x", JsonBodyOutcome.notJson⟩) "https://example.com").body =
        sjisEncode (cgiErrorHtml (cgiAuthPrompt "https://example.com")) ∧
      StrContains (cgiAuthPrompt "https://example.com")
        (cgiAuthUrl "https://example.com") :=
  c5_response_shape_amended.2.2.1 "err" "1"
    ⟨401, "x", JsonBodyOutcome.notJson⟩ "https://example.com" rfl

/-! ### Claim C6 — fingerprint hashing is deterministic and total -/

theorem natToBytesBE_length (k : Nat) : ∀ n, (natToBytesBE k n).length = k := by
  induction k with
  | zero => intro n; rfl
  | succ k ih => intro n; simp [natToBytesBE, ih]

theorem sha256_length (msg : List Nat) : (sha256 msg).length = 32 := by
  simp [sha256, natToBytesBE_length]

theorem hexOfBytes_length (bs : List Nat) :
    (hexOfBytes bs).length = 2 * bs.length := by
  induction bs with
  | nil => rfl
  | cons b t ih => simp [hexOfBytes, ih]; omega

theorem getVisitorId_length (p : FpPayload) : (getVisitorId p).length = 64 := by
  show (String.mk (hexOfBytes (sha256 (utf8Encode (stableValues p))))).length = 64
  show (hexOfBytes (sha256 (utf8Encode (stableValues p)))).length = 64
  rw [hexOfBytes_length, sha256_length]

/-- C6: the composite fingerprint hash is deterministic and total — it
depends only on the values of the three trusted components (webgl,
canvas, audio), so identical component values give byte-for-byte
identical hex output (object values are serialized by the deterministic
`JSON.stringify` before hashing); a missing component contributes the
empty-string placeholder instead of aborting; and every payload,
stripped signals included, yields a full 64-hex-character hash. -/
theorem c6_fingerprint_hash_deterministic :
    (∀ p q : FpPayload,
        fpLookup p "webgl" = fpLookup q "webgl" →
        fpLookup p "canvas" = fpLookup q "canvas" →
        fpLookup p "audio" = fpLookup q "audio" →
        getVisitorId p = getVisitorId q)
    ∧ (∀ (p : FpPayload) (name : String),
        fpLookup p name = none → componentContribution p name = "")
    ∧ (∀ p : FpPayload, (getVisitorId p).length = 64) := by
  refine ⟨?_, ?_, getVisitorId_length⟩
  · intro p q h1 h2 h3
    have hsv : stableValues p = stableValues q := by
      simp only [stableValues, stableComponents, List.map_cons, List.map_nil,
        componentContribution, h1, h2, h3]
    unfold getVisitorId
    rw [hsv]
  · intro p name h
    simp [componentContribution, h]

/-- Witness for C6: a payload with an extra untrusted component and one
with the canvas/audio signals stripped hash identically when the webgl
value agrees. -/
theorem c6_fingerprint_witness :
    getVisitorId [("webgl", some (JsVal.vStr "w")), ("fonts", none)] =
      getVisitorId [("webgl", some (JsVal.vStr "w"))] :=
  c6_fingerprint_hash_deterministic.1 _ _ rfl rfl rfl

/-! ### Claim C8 — at most one active lock per target key -/

theorem upsertLock_keys (t : List RateLimitLockRow) (r : RateLimitLockRow)
    (ha : t.any (fun row => row.targetKey == r.targetKey) = true) :
    (upsertLock t r).map (fun row => row.targetKey) =
      t.map (fun row => row.targetKey) := by
  unfold upsertLock
  rw [if_pos ha, List.map_map]
  have hf : ((fun row : RateLimitLockRow => row.targetKey) ∘ fun row =>
      if row.targetKey == r.targetKey then
        { r with expiresAt := max row.expiresAt r.expiresAt }
      else row) = fun row => row.targetKey := by
    funext row
    by_cases hb : row.targetKey == r.targetKey
    · simp only [Function.comp, hb, if_pos]
      exact (eq_of_beq hb).symm
    · simp [Function.comp, hb]
  rw [hf]

theorem locksReachable_unique : ∀ t, LocksReachable t → locksKeyUnique t := by
  intro t h
  induction h with
  | init => simp [locksKeyUnique]
  | upsert t r _ ih =>
    unfold locksKeyUnique at *
    by_cases ha : t.any (fun row => row.targetKey == r.targetKey)
    · rw [upsertLock_keys t r ha]
      exact ih
    · unfold upsertLock
      rw [if_neg (by simp [Bool.not_eq_true] at ha ⊢; exact ha),
        List.map_append, List.nodup_append]
      refine ⟨ih, List.nodup_singleton _, ?_⟩
      intro a hmem hin
      have ha2 : a = r.targetKey := by simpa using hin
      rcases List.mem_map.mp hmem with ⟨row, hrow, he⟩
      have : t.any (fun row => row.targetKey == r.targetKey) = true :=
        List.any_eq_true.mpr ⟨row, hrow, by simp [he, ha2]⟩
      simp [this] at ha
  | purge t now _ ih =>
    exact ih.sublist ((List.filter_sublist t).map (fun row => row.targetKey))
  | clear t key _ ih =>
    exact ih.sublist ((List.filter_sublist t).map (fun row => row.targetKey))

theorem upsertLock_latest_wins (t : List RateLimitLockRow)
    (r old : RateLimitLockRow) (hold : lockFor t r.targetKey = some old) :
    lockFor (upsertLock t r) r.targetKey =
      some { r with expiresAt := max old.expiresAt r.expiresAt } := by
  induction t with
  | nil => simp [lockFor] at hold
  | cons row0 t' ih =>
    rw [lockFor] at hold
    by_cases hb : (row0.targetKey == r.targetKey) = true
    · simp only [List.find?_cons, hb] at hold
      have hold0 : old = row0 := (Option.some_injective _ hold).symm
      have hany : (row0 :: t').any (fun row => row.targetKey == r.targetKey) = true := by
        simp [hb]
      unfold upsertLock
      rw [if_pos hany, List.map_cons, if_pos hb, lockFor]
      have hkey : (({ r with expiresAt := max row0.expiresAt r.expiresAt } :
          RateLimitLockRow).targetKey == r.targetKey) = true := by simp
      simp only [List.find?_cons, hkey]
      rw [hold0]
    · have hbf : (row0.targetKey == r.targetKey) = false := by
        simpa using hb
      simp only [List.find?_cons, hbf] at hold
      have hmem := List.mem_of_find?_eq_some hold
      have hpred := List.find?_some hold
      have hanyt : t'.any (fun row => row.targetKey == r.targetKey) = true :=
        List.any_eq_true.mpr ⟨old, hmem, hpred⟩
      have hany : (row0 :: t').any (fun row => row.targetKey == r.targetKey) = true := by
        simp [hanyt]
      unfold upsertLock
      rw [if_pos hany, List.map_cons, if_neg hb, lockFor]
      simp only [List.find?_cons, hbf]
      have hih := ih hold
      unfold upsertLock at hih
      rw [if_pos hanyt] at hih
      rw [lockFor] at hih
      exact hih

theorem upsertLock_fresh (t : List RateLimitLockRow) (r : RateLimitLockRow)
    (hnone : lockFor t r.targetKey = none) :
    lockFor (upsertLock t r) r.targetKey = some r := by
  have hany : t.any (fun row => row.targetKey == r.targetKey) = false := by
    rw [List.any_eq_false]
    intro row hrow
    rw [lockFor, List.find?_eq_none] at hnone
    exact hnone row hrow
  unfold upsertLock
  rw [if_neg (by simp [hany])]
  rw [lockFor, List.find?_append]
  rw [lockFor] at hnone
  rw [hnone]
  simp [List.find?_cons]

/-- C8: in every reachable lock-table state the target keys are pairwise
distinct (the `PRIMARY KEY` / upsert discipline), so two requests
crossing a threshold can never materialise two lock rows for one key;
and on conflict the upsert keeps the later expiry, while a fresh key
simply gains its row. -/
theorem c8_lock_key_uniqueness :
    (∀ t, LocksReachable t → locksKeyUnique t)
    ∧ (∀ (t : List RateLimitLockRow) (r old : RateLimitLockRow),
        lockFor t r.targetKey = some old →
        lockFor (upsertLock t r) r.targetKey =
          some { r with expiresAt := max old.expiresAt r.expiresAt })
    ∧ (∀ (t : List RateLimitLockRow) (r : RateLimitLockRow),
        lockFor t r.targetKey = none →
        lockFor (upsertLock t r) r.targetKey = some r) :=
  ⟨locksReachable_unique, upsertLock_latest_wins, upsertLock_fresh⟩

/-- Witness for C8: two upserts on the same key from the empty table
still leave unique keys. -/
theorem c8_lock_key_uniqueness_witness :
    locksKeyUnique (upsertLock (upsertLock [] ⟨"k", 1, 10⟩) ⟨"k", 2, 5⟩) :=
  c8_lock_key_uniqueness.1 _
    (LocksReachable.upsert _ _ (LocksReachable.upsert _ _ LocksReachable.init))

/-! ### Claim C10 — the dat-field escaper -/

theorem escNl_no_lf (l : List Char) : '\n' ∉ escNl l := by
  induction l using escNl.induct with
  | case1 => simp [escNl]
  | case2 c1 c2 rest h ih =>
    have he : escNl (c1 :: c2 :: rest) = ' ' :: escNl rest := by
      simp [escNl, h.1, h.2]
    rw [he]
    intro hmem
    rcases List.mem_cons.mp hmem with heq | hm
    · exact absurd heq (by decide)
    · exact ih hm
  | case3 c2 rest h ih =>
    have he : escNl ('\n' :: c2 :: rest) = ' ' :: escNl (c2 :: rest) := by
      simp [escNl, h]
    rw [he]
    intro hmem
    rcases List.mem_cons.mp hmem with heq | hm
    · exact absurd heq (by decide)
    · exact ih hm
  | case4 c1 c2 rest h h1 ih =>
    have he : escNl (c1 :: c2 :: rest) = c1 :: escNl (c2 :: rest) := by
      simp [escNl, h, h1]
    rw [he]
    intro hmem
    rcases List.mem_cons.mp hmem with heq | hm
    · exact h1 (by rw [heq])
    · exact ih hm
  | case5 => simp [escNl]
  | case6 c1 h =>
    simp only [escNl, if_neg h]
    intro hmem
    have : '\n' = c1 := by simpa using hmem
    exact h this.symm

theorem mem_escNl_subset {c : Char} :
    ∀ l : List Char, c ∈ escNl l → c ∈ l ∨ c = ' ' := by
  intro l
  induction l using escNl.induct with
  | case1 => simp [escNl]
  | case2 c1 c2 rest h ih =>
    have he : escNl (c1 :: c2 :: rest) = ' ' :: escNl rest := by
      simp [escNl, h.1, h.2]
    rw [he]
    intro hmem
    rcases List.mem_cons.mp hmem with heq | hm
    · exact Or.inr heq
    · rcases ih hm with hin | hsp
      · exact Or.inl (by simp [hin])
      · exact Or.inr hsp
  | case3 c2 rest h ih =>
    have he : escNl ('\n' :: c2 :: rest) = ' ' :: escNl (c2 :: rest) := by
      simp [escNl, h]
    rw [he]
    intro hmem
    rcases List.mem_cons.mp hmem with heq | hm
    · exact Or.inr heq
    · rcases ih hm with hin | hsp
      · exact Or.inl (List.mem_cons_of_mem _ hin)
      · exact Or.inr hsp
  | case4 c1 c2 rest h h1 ih =>
    have he : escNl (c1 :: c2 :: rest) = c1 :: escNl (c2 :: rest) := by
      simp [escNl, h, h1]
    rw [he]
    intro hmem
    rcases List.mem_cons.mp hmem with heq | hm
    · exact Or.inl (by simp [heq])
    · rcases ih hm with hin | hsp
      · exact Or.inl (List.mem_cons_of_mem _ hin)
      · exact Or.inr hsp
  | case5 =>
    intro hmem
    exact Or.inr (by simpa [escNl] using hmem)
  | case6 c1 h =>
    intro hmem
    exact Or.inl (by simpa [escNl, h] using hmem)

theorem escLt_no_lt (l : List Char) : '<' ∉ escLt l := by
  intro h
  simp only [escLt, List.mem_flatten, List.mem_map] at h
  rcases h with ⟨s, ⟨c0, hc0, rfl⟩, hmem⟩
  by_cases hc : c0 = '<'
  · simp [hc] at hmem
  · simp [hc] at hmem
    exact hc hmem.symm

/-- C10, as stated, is false on bare carriage returns: the regex
`/\r?\n/g` only matches a LF (optionally preceded by CR), so a CR not
followed by LF — itself a newline character — survives unreplaced. -/
theorem c10_escape_dat_counterexample :
    escapeDatField (some "a\rb") = "a\rb" ∧
      '\r' ∈ (escapeDatField (some "a\rb")).data := by
  constructor <;> decide

/-- C10 (amended): the escaper maps `&` to `&amp;`, `<` to `&lt;`, and
every LF — together with an immediately preceding CR — to a space,
leaving `>` (and a bare CR) unchanged, and maps null/undefined (and the
falsy empty string) to `""`; hence no field it produces contains a raw
`<` or a LF.  (A bare CR can still appear; see the counterexample.) -/
theorem c10_escape_dat_amended :
    (∀ s : String, '\n' ∉ (escapeDatField (some s)).data ∧
        '<' ∉ (escapeDatField (some s)).data)
    ∧ escapeDatField none = ""
    ∧ escapeDatField (some "a&b<c>d\r\ne\rf") = "a&amp;b&lt;c>d e\rf" := by
  refine ⟨?_, rfl, by decide⟩
  intro s
  by_cases hs : s = ""
  · simp [escapeDatField, hs]
  · constructor
    · simpa [escapeDatField, hs] using escNl_no_lf (escLt (escAmp s.data))
    · intro hmem
      have hmem2 : '<' ∈ escNl (escLt (escAmp s.data)) := by
        simpa [escapeDatField, hs] using hmem
      rcases mem_escNl_subset _ hmem2 with hin | hsp
      · exact escLt_no_lt _ hin
      · exact absurd hsp (by decide)

/-- Witness for the amended C10 at a field containing `<`, CRLF and a
reply anchor. -/
theorem c10_escape_dat_witness :
    '\n' ∉ (escapeDatField (some ">>1 a<b\r\nc")).data ∧
      '<' ∉ (escapeDatField (some ">>1 a<b\r\nc")).data :=
  c10_escape_dat_amended.1 ">>1 a<b\r\nc"

end AtSt
